import Mathlib

/-!
Verification of the rate-limiting and ephemeral-cache core of the Arisa bot.

The development shallowly embeds the relevant Rust source:
  - `src/util/cooldown.rs`  (`CooldownManager`: `check_cooldown`, `cleanup_expired`)
  - `src/command/security/cve.rs`  (`CVE_CACHE`: `get_cached_cve`, `cache_cve`,
    and the lookup-or-fetch flow of the `cve` command)
  - `src/util/command.rs`  (`validate_input_size`)
  - `src/error.rs`  (`BotError`)

Modelling conventions:
  - `std::time::Instant` is a `Nat`: nanoseconds since the platform monotonic
    clock epoch.  `std::time::Duration` is a `Nat` of nanoseconds.
    `Duration::from_secs` is `durationFromSecs`, `Duration::as_secs` is
    `durationAsSecs` (truncating division, as in Rust).
    `Instant::elapsed` is truncated `Nat` subtraction `now - earlier`
    (Rust's `duration_since` saturates at zero).
    `Instant - Duration` (used by `cleanup_expired`) is `instantCheckedSub`:
    Rust's `Sub<Duration> for Instant` calls `checked_sub` and PANICS on
    underflow, so the model returns `Option` with `none` marking the panic.
  - `HashMap<K, V>` is an association list `List (K × V)`; `insert` replaces
    the binding in place or appends, `retain` is `List.filter`, `get` is
    `alistLookup` (first binding wins; maps built by the modelled operations
    have pairwise-distinct keys, captured by the `WF` predicate where needed).
  - `u64` and `usize` values are `Nat`.
  - Async functions run their bodies while holding the single `RwLock` writer
    (or reader) guard, so each call is modelled as one atomic state
    transition: a pure function from the store (plus the clock reading taken
    inside the critical section) to the result and the new store.
-/

deriving instance DecidableEq for Except

namespace Arisa

/-- Nanoseconds in one second, the resolution of `std::time::Duration`. -/
def nanosPerSec : Nat := 1000000000

/-- Rust `Duration::from_secs`. -/
def durationFromSecs (s : Nat) : Nat := s * nanosPerSec

/-- Rust `Duration::as_secs`: whole seconds, truncating (rounding down). -/
def durationAsSecs (d : Nat) : Nat := d / nanosPerSec

/-- Rust `Instant::checked_sub` on the model: `none` when the duration reaches back
before the monotonic clock epoch.  `Instant - Duration` panics exactly when
this returns `none`. -/
def instantCheckedSub (now d : Nat) : Option Nat :=
  if d ≤ now then some (now - d) else none

/-- Rust `HashMap::get` on an association list: first binding for the key. -/
def alistLookup {α : Type} {β : Type} [DecidableEq α] :
    List (α × β) → α → Option β
  | [], _ => none
  | (k, v) :: rest, a => if k = a then some v else alistLookup rest a

/-- Rust `HashMap::insert` on an association list: replace the first binding for
the key in place, or append a fresh binding. -/
def alistInsert {α : Type} {β : Type} [DecidableEq α] :
    List (α × β) → α → β → List (α × β)
  | [], a, b => [(a, b)]
  | (k, v) :: rest, a, b =>
      if k = a then (k, b) :: rest else (k, v) :: alistInsert rest a b

/-- Rust `BotError` from `src/error.rs`.  The variants wrapping foreign library
error types (`Network`, `ImageGeneration`, `Serialization`, `Serenity`) are
not produced by any modelled function and are omitted. -/
inductive BotError : Type where
  | InputTooLarge : Nat → BotError
  | InvalidFormat : String → BotError
  | GitHub : String → BotError
  | Color : String → BotError
  | Cooldown : Nat → BotError
  | Config : String → BotError
  deriving DecidableEq, Repr

/-- Rust `LimitsConfig` from `src/config/config.rs`. -/
structure LimitsConfig : Type where
  max_input_size : Nat
  max_output_size : Nat
  deriving DecidableEq, Repr

/-- Rust `Config` from `src/config/config.rs`, restricted to the fields read by
the modelled functions (`discord`, `cooldowns`, `quotes`, `github` are never
touched by them). -/
structure Config : Type where
  limits : LimitsConfig
  deriving DecidableEq, Repr

/-- Rust `validate_input_size` from `src/util/command.rs`.  Rust's `str::len` is
the UTF-8 byte length. -/
def validate_input_size (input : String) (config : Config) :
    Except BotError Unit :=
  if input.utf8ByteSize > config.limits.max_input_size then
    Except.error (BotError.InputTooLarge input.utf8ByteSize)
  else
    Except.ok ()

/-- Rust `CooldownManager` from `src/util/cooldown.rs`:
`Arc<RwLock<HashMap<String, HashMap<u64, Instant>>>>`, the outer key a
command name, the inner key a user id, the value the instant of the last
successful invocation. -/
structure CooldownManager : Type where
  cooldowns : List (String × List (Nat × Nat))
  deriving DecidableEq, Repr

/-- Rust `CooldownManager::new`. -/
def CooldownManager.new : CooldownManager := ⟨[]⟩

/-- The stored timestamp for a (command, user) key, read the way
`check_cooldown` reads it (absent command and absent user both read as
`none`). -/
def CooldownManager.lookup (self : CooldownManager) (command : String)
    (user_id : Nat) : Option Nat :=
  alistLookup ((alistLookup self.cooldowns command).getD []) user_id

/-- Key uniqueness invariant of the nested `HashMap`s: association-list
models of hash maps reachable from `CooldownManager::new` have
pairwise-distinct keys at both levels. -/
def CooldownManager.WF (self : CooldownManager) : Prop :=
  (self.cooldowns.map Prod.fst).Nodup ∧
    ∀ p ∈ self.cooldowns, (p.2.map Prod.fst).Nodup

instance (self : CooldownManager) : Decidable self.WF := by
  unfold CooldownManager.WF
  infer_instance

/-- Rust `CooldownManager::check_cooldown` from `src/util/cooldown.rs`.  The body
runs under the single writer lock; `now` is the reading `Instant::now()`
would give inside the critical section (the code samples the clock in
`elapsed()` and in `Instant::now()`; the lock is held throughout, so one
reading stands for both).  `entry(..).or_insert_with(HashMap::new)` makes
the command's inner map present in the outer map in every branch, hence the
`alistInsert self.cooldowns command ...` in each result. -/
def CooldownManager.check_cooldown (self : CooldownManager) (now : Nat)
    (command : String) (user_id : Nat) (cooldown_seconds : Nat) :
    Except BotError Unit × CooldownManager :=
  let command_cooldowns := (alistLookup self.cooldowns command).getD []
  match alistLookup command_cooldowns user_id with
  | some last_used =>
      let elapsed := now - last_used
      let cooldown_duration := durationFromSecs cooldown_seconds
      if elapsed < cooldown_duration then
        (Except.error (BotError.Cooldown
            (durationAsSecs (cooldown_duration - elapsed))),
          ⟨alistInsert self.cooldowns command command_cooldowns⟩)
      else
        (Except.ok (),
          ⟨alistInsert self.cooldowns command
            (alistInsert command_cooldowns user_id now)⟩)
  | none =>
      (Except.ok (),
        ⟨alistInsert self.cooldowns command
          (alistInsert command_cooldowns user_id now)⟩)

/-- The store produced by a successful `check_cooldown`: the branch
`command_cooldowns.insert(user_id, Instant::now())` under the
`entry(..).or_insert_with(HashMap::new)` of the outer map. -/
def CooldownManager.record (self : CooldownManager) (now : Nat)
    (command : String) (user_id : Nat) : CooldownManager :=
  ⟨alistInsert self.cooldowns command
    (alistInsert ((alistLookup self.cooldowns command).getD []) user_id now)⟩

/-- Rust `CooldownManager::cleanup_expired` from `src/util/cooldown.rs`.  The
cutoff `Instant::now() - Duration::from_secs(max_age_seconds)` is computed
before the store is examined; Rust's `Sub<Duration> for Instant` panics on
underflow, modelled by the `none` result.  Each inner map retains entries
with `last_used > cutoff`, then the outer map retains non-empty inner
maps. -/
def CooldownManager.cleanup_expired (self : CooldownManager) (now : Nat)
    (max_age_seconds : Nat) : Option CooldownManager :=
  match instantCheckedSub now (durationFromSecs max_age_seconds) with
  | none => none
  | some cutoff =>
      some ⟨((self.cooldowns.map
          (fun p => (p.1, p.2.filter (fun q => decide (cutoff < q.2))))).filter
            (fun p => !p.2.isEmpty))⟩

/-- Rust `CachedCve` from `src/command/security/cve.rs`.  The cache logic never
inspects the payload `CveData` (a JSON record it only clones and stores), so
the model is parametric in the payload type `V`. -/
structure CachedCve (V : Type) : Type where
  data : V
  cached_at : Nat
  deriving DecidableEq, Repr

/-- Rust `CACHE_DURATION` from `src/command/security/cve.rs`:
`Duration::from_secs(3600)`. -/
def CACHE_DURATION : Nat := durationFromSecs 3600

/-- Rust `get_cached_cve` from `src/command/security/cve.rs`: read the entry under
the reader lock, return its data only when its age is strictly below
`CACHE_DURATION`. -/
def get_cached_cve {V : Type} (cache : List (String × CachedCve V))
    (now : Nat) (cve_id : String) : Option V :=
  match alistLookup cache cve_id with
  | some cached =>
      if now - cached.cached_at < CACHE_DURATION then some cached.data
      else none
  | none => none

/-- Rust `cache_cve` from `src/command/security/cve.rs`: under the writer lock,
insert the entry stamped `now`, then retain only entries whose age is
strictly below `CACHE_DURATION` (the inline sweep). -/
def cache_cve {V : Type} (cache : List (String × CachedCve V)) (now : Nat)
    (cve_id : String) (data : V) : List (String × CachedCve V) :=
  (alistInsert cache cve_id ⟨data, now⟩).filter
    (fun p => decide (now - p.2.cached_at < CACHE_DURATION))

/-- The cache interaction of the `cve` command (`src/command/security/cve.rs`
lines 157-164): consult `get_cached_cve`; on a miss run the fetch (its one
call site), propagate a fetch error without touching the cache (the `?` on
`fetch_cve_info`), and on fetch success store the result with `cache_cve`.
`fetch` is the value the single `fetch_cve_info` invocation would produce;
the `Bool` component records whether that invocation happened. -/
def cveCacheStep {V : Type} {E : Type} (cache : List (String × CachedCve V))
    (now : Nat) (normalized_id : String) (fetch : Except E V) :
    Except E V × List (String × CachedCve V) × Bool :=
  match get_cached_cve cache now normalized_id with
  | some cached => (Except.ok cached, cache, false)
  | none =>
      match fetch with
      | Except.ok fetched =>
          (Except.ok fetched, cache_cve cache now normalized_id fetched, true)
      | Except.error e => (Except.error e, cache, true)

/-- Looking up the key just inserted finds the new value. -/
theorem alistLookup_insert_self {α : Type} {β : Type} [DecidableEq α]
    (l : List (α × β)) (k : α) (v : β) :
    alistLookup (alistInsert l k v) k = some v := by
  induction l with
  | nil => simp [alistInsert, alistLookup]
  | cons p rest ih =>
      obtain ⟨a, b⟩ := p
      by_cases h : a = k
      · simp [alistInsert, alistLookup, h]
      · simp [alistInsert, alistLookup, h, ih]

/-- Insertion leaves every other key's binding unchanged. -/
theorem alistLookup_insert_of_ne {α : Type} {β : Type} [DecidableEq α]
    (l : List (α × β)) (k a : α) (v : β) (h : a ≠ k) :
    alistLookup (alistInsert l k v) a = alistLookup l a := by
  have hka : ¬k = a := fun hh => h hh.symm
  induction l with
  | nil => simp [alistInsert, alistLookup, hka]
  | cons p rest ih =>
      obtain ⟨x, y⟩ := p
      by_cases hx : x = k
      · subst hx
        simp [alistInsert, alistLookup, hka]
      · simp [alistInsert, alistLookup, hx, ih]

/-- Re-inserting the value a key already holds is a no-op on the list. -/
theorem alistInsert_self_of_lookup {α : Type} {β : Type} [DecidableEq α]
    (l : List (α × β)) (k : α) (v : β) (h : alistLookup l k = some v) :
    alistInsert l k v = l := by
  induction l with
  | nil => simp [alistLookup] at h
  | cons p rest ih =>
      obtain ⟨a, b⟩ := p
      by_cases ha : a = k
      · simp [alistLookup, ha] at h
        simp [alistInsert, ha, h]
      · simp [alistLookup, ha] at h
        simp [alistInsert, ha, ih h]

/-- A key absent from the key column looks up to `none`. -/
theorem alistLookup_eq_none_of_not_mem {α : Type} {β : Type} [DecidableEq α]
    (l : List (α × β)) (k : α) (h : k ∉ l.map Prod.fst) :
    alistLookup l k = none := by
  induction l with
  | nil => simp [alistLookup]
  | cons p rest ih =>
      obtain ⟨a, b⟩ := p
      simp only [List.map_cons, List.mem_cons] at h
      push_neg at h
      have h1 : ¬a = k := fun hh => h.1 hh.symm
      simp [alistLookup, h1, ih h.2]

/-- A successful lookup exhibits a member of the list. -/
theorem alistLookup_mem {α : Type} {β : Type} [DecidableEq α]
    (l : List (α × β)) (k : α) (v : β) (h : alistLookup l k = some v) :
    (k, v) ∈ l := by
  induction l with
  | nil => simp [alistLookup] at h
  | cons p rest ih =>
      obtain ⟨a, b⟩ := p
      by_cases ha : a = k
      · subst ha
        simp [alistLookup] at h
        simp [h]
      · simp [alistLookup, ha] at h
        exact List.mem_cons_of_mem _ (ih h)

/-- A binding that satisfies the filter predicate survives `retain`
unchanged (no key-uniqueness needed: the bindings in front of the first hit
carry other keys). -/
theorem alistLookup_filter_of_lookup {α : Type} {β : Type} [DecidableEq α]
    (l : List (α × β)) (p : α × β → Bool) (k : α) (v : β)
    (h : alistLookup l k = some v) (hp : p (k, v) = true) :
    alistLookup (l.filter p) k = some v := by
  induction l with
  | nil => simp [alistLookup] at h
  | cons q rest ih =>
      obtain ⟨a, b⟩ := q
      by_cases ha : a = k
      · subst ha
        simp [alistLookup] at h
        subst h
        simp [List.filter, hp, alistLookup]
      · simp [alistLookup, ha] at h
        by_cases hq : p (a, b) = true
        · simp [List.filter, hq, alistLookup, ha, ih h]
        · simp [List.filter, hq, ih h]

/-- On a list with pairwise-distinct keys, lookup commutes with `retain`. -/
theorem alistLookup_filter_nodup {α : Type} {β : Type} [DecidableEq α]
    (l : List (α × β)) (p : α × β → Bool) (k : α)
    (hnd : (l.map Prod.fst).Nodup) :
    alistLookup (l.filter p) k =
      match alistLookup l k with
      | some v => if p (k, v) then some v else none
      | none => none := by
  induction l with
  | nil => simp [alistLookup]
  | cons q rest ih =>
      obtain ⟨a, b⟩ := q
      simp only [List.map_cons, List.nodup_cons] at hnd
      by_cases ha : a = k
      · subst ha
        have hrest : alistLookup rest a = none :=
          alistLookup_eq_none_of_not_mem rest a hnd.1
        by_cases hq : p (a, b) = true
        · simp [List.filter, hq, alistLookup]
        · simp [List.filter, hq, alistLookup, ih hnd.2, hrest]
      · by_cases hq : p (a, b) = true
        · simp [List.filter, hq, alistLookup, ha, ih hnd.2]
        · simp [List.filter, hq, alistLookup, ha, ih hnd.2]

/-- Lookup commutes with a value-wise map that keeps keys. -/
theorem alistLookup_map_value {α : Type} {β : Type} {γ : Type} [DecidableEq α]
    (l : List (α × β)) (f : β → γ) (k : α) :
    alistLookup (l.map (fun p => (p.1, f p.2))) k =
      (alistLookup l k).map f := by
  induction l with
  | nil => simp [alistLookup]
  | cons q rest ih =>
      obtain ⟨a, b⟩ := q
      by_cases ha : a = k
      · simp [alistLookup, ha]
      · simp [alistLookup, ha, ih]

/-- Lookup in a recorded store: the touched key now holds `now`, every other
key is untouched. -/
theorem CooldownManager.lookup_record (st : CooldownManager) (now : Nat)
    (c : String) (u : Nat) (c' : String) (u' : Nat) :
    (st.record now c u).lookup c' u' =
      if c' = c ∧ u' = u then some now else st.lookup c' u' := by
  by_cases hc : c' = c
  · subst hc
    by_cases hu : u' = u
    · subst hu
      simp [CooldownManager.record, CooldownManager.lookup,
        alistLookup_insert_self]
    · simp [CooldownManager.record, CooldownManager.lookup,
        alistLookup_insert_self, alistLookup_insert_of_ne _ _ _ _ hu, hu]
  · simp [CooldownManager.record, CooldownManager.lookup,
      alistLookup_insert_of_ne _ _ _ _ hc, hc]

/-- Rust `check_cooldown` on a key with no stored entry: success, store becomes
`record`. -/
theorem check_cooldown_of_lookup_none (st : CooldownManager) (now : Nat)
    (c : String) (u w : Nat) (h : st.lookup c u = none) :
    st.check_cooldown now c u w = (Except.ok (), st.record now c u) := by
  unfold CooldownManager.lookup at h
  simp [CooldownManager.check_cooldown, CooldownManager.record, h]

/-- Rust `check_cooldown` within the window: throttled with the truncated
remaining seconds, and the store is returned unchanged (the
`or_insert_with` re-inserts the inner map the command already holds). -/
theorem check_cooldown_of_throttled (st : CooldownManager) (now : Nat)
    (c : String) (u w last : Nat) (h : st.lookup c u = some last)
    (hlt : now - last < durationFromSecs w) :
    st.check_cooldown now c u w =
      (Except.error (BotError.Cooldown
        (durationAsSecs (durationFromSecs w - (now - last)))), st) := by
  unfold CooldownManager.lookup at h
  have hcmd : alistLookup st.cooldowns c =
      some ((alistLookup st.cooldowns c).getD []) := by
    cases hx : alistLookup st.cooldowns c with
    | none => rw [hx] at h; simp [alistLookup] at h
    | some inner => simp [hx]
  have hins : alistInsert st.cooldowns c
      ((alistLookup st.cooldowns c).getD []) = st.cooldowns :=
    alistInsert_self_of_lookup st.cooldowns c _ hcmd
  simp [CooldownManager.check_cooldown, h, hlt, hins]

/-- Rust `check_cooldown` at or past the window boundary: success, store becomes
`record`. -/
theorem check_cooldown_of_expired (st : CooldownManager) (now : Nat)
    (c : String) (u w last : Nat) (h : st.lookup c u = some last)
    (hge : durationFromSecs w ≤ now - last) :
    st.check_cooldown now c u w = (Except.ok (), st.record now c u) := by
  unfold CooldownManager.lookup at h
  simp [CooldownManager.check_cooldown, CooldownManager.record, h,
    Nat.not_lt.mpr hge]

/-- The verdict of `check_cooldown` depends only on the stored entry of its
own key. -/
theorem check_cooldown_fst_congr (st₁ st₂ : CooldownManager) (now : Nat)
    (c : String) (u w : Nat) (h : st₁.lookup c u = st₂.lookup c u) :
    (st₁.check_cooldown now c u w).1 = (st₂.check_cooldown now c u w).1 := by
  cases hl : st₂.lookup c u with
  | none =>
      rw [check_cooldown_of_lookup_none st₁ now c u w (h.trans hl),
        check_cooldown_of_lookup_none st₂ now c u w hl]
  | some last =>
      by_cases hlt : now - last < durationFromSecs w
      · rw [check_cooldown_of_throttled st₁ now c u w last (h.trans hl) hlt,
          check_cooldown_of_throttled st₂ now c u w last hl hlt]
      · rw [check_cooldown_of_expired st₁ now c u w last (h.trans hl)
            (Nat.not_lt.mp hlt),
          check_cooldown_of_expired st₂ now c u w last hl (Nat.not_lt.mp hlt)]

/-- A successful `check_cooldown` leaves the store in the `record` state. -/
theorem check_cooldown_snd_of_ok (st : CooldownManager) (now : Nat)
    (c : String) (u w : Nat)
    (hok : (st.check_cooldown now c u w).1 = Except.ok ()) :
    (st.check_cooldown now c u w).2 = st.record now c u := by
  cases hl : st.lookup c u with
  | none => rw [check_cooldown_of_lookup_none st now c u w hl]
  | some last =>
      by_cases hlt : now - last < durationFromSecs w
      · rw [check_cooldown_of_throttled st now c u w last hl hlt] at hok
        exact nomatch hok
      · rw [check_cooldown_of_expired st now c u w last hl (Nat.not_lt.mp hlt)]

/-- Claim C1: for every (command, user) key and every window_seconds > 0, if
`check_and_record` succeeds at time t, a second call on the same key less
than window_seconds later returns Throttled and leaves the stored timestamp
equal to t; a second call at least window_seconds later, or a call on a key
with no stored entry, succeeds and updates the stored timestamp to the time
of that call.  Times are instants in nanoseconds; t ≤ t' reflects the
monotonic clock. -/
theorem C1_throttle_window_correctness (st : CooldownManager) (t : Nat)
    (c : String) (u w : Nat) (_hw : 0 < w)
    (hok : (st.check_cooldown t c u w).1 = Except.ok ()) :
    (st.check_cooldown t c u w).2.lookup c u = some t ∧
    (∀ t' : Nat, t ≤ t' → t' - t < durationFromSecs w →
      (∃ r : Nat, (((st.check_cooldown t c u w).2).check_cooldown t' c u w).1 =
          Except.error (BotError.Cooldown r)) ∧
      ((((st.check_cooldown t c u w).2).check_cooldown t' c u w).2).lookup c u =
        some t) ∧
    (∀ t' : Nat, t ≤ t' → durationFromSecs w ≤ t' - t →
      (((st.check_cooldown t c u w).2).check_cooldown t' c u w).1 =
        Except.ok () ∧
      ((((st.check_cooldown t c u w).2).check_cooldown t' c u w).2).lookup c u =
        some t') ∧
    (∀ (st' : CooldownManager) (t' : Nat), st'.lookup c u = none →
      (st'.check_cooldown t' c u w).1 = Except.ok () ∧
      ((st'.check_cooldown t' c u w).2).lookup c u = some t') := by
  have hst := check_cooldown_snd_of_ok st t c u w hok
  have hl1 : (st.check_cooldown t c u w).2.lookup c u = some t := by
    rw [hst, CooldownManager.lookup_record]
    simp
  refine ⟨hl1, ?_, ?_, ?_⟩
  · intro t' _hle hlt
    rw [check_cooldown_of_throttled _ t' c u w t hl1 hlt]
    exact ⟨⟨_, rfl⟩, hl1⟩
  · intro t' _hle hge
    rw [check_cooldown_of_expired _ t' c u w t hl1 hge]
    refine ⟨rfl, ?_⟩
    rw [CooldownManager.lookup_record]
    simp
  · intro st' t' hnone
    rw [check_cooldown_of_lookup_none st' t' c u w hnone]
    refine ⟨rfl, ?_⟩
    rw [CooldownManager.lookup_record]
    simp

/-- Witness for C1 at the spec scenario: window 5 s, success at t = 0,
repeat at t = 2 s; the stored timestamp stays 0. -/
theorem C1_witness :
    (((CooldownManager.new.check_cooldown 0 "hash" 42 5).2).check_cooldown
        2000000000 "hash" 42 5).2.lookup "hash" 42 = some 0 :=
  ((C1_throttle_window_correctness CooldownManager.new 0 "hash" 42 5
      (by decide) (by decide)).2.1 2000000000 (by decide) (by decide)).2

/-- Claim C4: a `check_and_record` call for key (command, user) never
modifies the stored entry of any other (command', user') key; a throttled
call modifies no stored timestamp at all; and consequently the verdict for a
distinct key is unaffected by the call (distinct keys never throttle each
other). -/
theorem C4_frame_isolation (st : CooldownManager) (now : Nat) (c : String)
    (u w : Nat) :
    (∀ (c' : String) (u' : Nat), ¬(c' = c ∧ u' = u) →
      ((st.check_cooldown now c u w).2).lookup c' u' = st.lookup c' u') ∧
    (∀ e : BotError, (st.check_cooldown now c u w).1 = Except.error e →
      ∀ (c' : String) (u' : Nat),
        ((st.check_cooldown now c u w).2).lookup c' u' = st.lookup c' u') ∧
    (∀ (c' : String) (u' : Nat) (now' w' : Nat), ¬(c' = c ∧ u' = u) →
      (((st.check_cooldown now c u w).2).check_cooldown now' c' u' w').1 =
        (st.check_cooldown now' c' u' w').1) := by
  have hframe : ∀ (c' : String) (u' : Nat), ¬(c' = c ∧ u' = u) →
      ((st.check_cooldown now c u w).2).lookup c' u' = st.lookup c' u' := by
    intro c' u' hne
    cases hl : st.lookup c u with
    | none =>
        rw [check_cooldown_of_lookup_none st now c u w hl,
          CooldownManager.lookup_record, if_neg hne]
    | some last =>
        by_cases hlt : now - last < durationFromSecs w
        · rw [check_cooldown_of_throttled st now c u w last hl hlt]
        · rw [check_cooldown_of_expired st now c u w last hl (Nat.not_lt.mp hlt),
            CooldownManager.lookup_record, if_neg hne]
  refine ⟨hframe, ?_, ?_⟩
  · intro e he c' u'
    cases hl : st.lookup c u with
    | none =>
        rw [check_cooldown_of_lookup_none st now c u w hl] at he
        exact nomatch he
    | some last =>
        by_cases hlt : now - last < durationFromSecs w
        · rw [check_cooldown_of_throttled st now c u w last hl hlt]
        · rw [check_cooldown_of_expired st now c u w last hl
            (Nat.not_lt.mp hlt)] at he
          exact nomatch he
  · intro c' u' now' w' hne
    exact check_cooldown_fst_congr _ _ now' c' u' w' (hframe c' u' hne)

/-- Witness for C4: recording "hash"/42 leaves the entry of "color"/7
untouched. -/
theorem C4_witness :
    (CooldownManager.new.check_cooldown 0 "hash" 42 5).2.lookup "color" 7 =
      CooldownManager.new.lookup "color" 7 :=
  (C4_frame_isolation CooldownManager.new 0 "hash" 42 5).1 "color" 7
    (by decide)

/-- Claim C5: a throttled call returns the remaining wait
`window_seconds - elapsed` truncated to whole seconds
(`Duration::as_secs`); at the spec scenario (window 5 s, repeat 2 s after
the success) the remaining wait is 3. -/
theorem C5_remaining_seconds (st : CooldownManager) (now t : Nat)
    (c : String) (u w : Nat) (hlk : st.lookup c u = some t) (_hle : t ≤ now)
    (hlt : now - t < durationFromSecs w) :
    (st.check_cooldown now c u w).1 =
      Except.error (BotError.Cooldown
        (durationAsSecs (durationFromSecs w - (now - t)))) ∧
    (((CooldownManager.new.check_cooldown 0 "hash" 42 5).2).check_cooldown
        2000000000 "hash" 42 5).1 = Except.error (BotError.Cooldown 3) := by
  constructor
  · rw [check_cooldown_of_throttled st now c u w t hlk hlt]
  · decide

/-- Witness for C5 at the spec scenario: remaining = 3 with window 5 s and
elapsed 2 s. -/
theorem C5_witness :
    (((CooldownManager.new.check_cooldown 0 "hash" 42 5).2).check_cooldown
        2000000000 "hash" 42 5).1 = Except.error (BotError.Cooldown 3) := by
  have h := C5_remaining_seconds
    (CooldownManager.new.check_cooldown 0 "hash" 42 5).2 2000000000 0
    "hash" 42 5 (by decide) (by decide) (by decide)
  exact h.1.trans (by decide)

/-- Claim C8: `validate_input_size` fails with `InputTooLarge` carrying the
input's byte length exactly when that byte length exceeds the configured
`max_input_size`, and succeeds otherwise; the measure is UTF-8 bytes, so the
three-character string "ααα" (six bytes) is rejected at a maximum of 5 even
though its character count is below the maximum. -/
theorem C8_validate_input_size_bytes (input : String) (config : Config) :
    (validate_input_size input config =
        Except.error (BotError.InputTooLarge input.utf8ByteSize) ↔
      config.limits.max_input_size < input.utf8ByteSize) ∧
    (validate_input_size input config = Except.ok () ↔
      input.utf8ByteSize ≤ config.limits.max_input_size) ∧
    ("ααα".length = 3 ∧ 3 ≤ 5 ∧
      validate_input_size "ααα" ⟨⟨5, 4000⟩⟩ =
        Except.error (BotError.InputTooLarge 6)) := by
  refine ⟨?_, ?_, by decide, by decide, by decide⟩
  · unfold validate_input_size
    by_cases h : input.utf8ByteSize > config.limits.max_input_size
    · rw [if_pos h]
      exact iff_of_true rfl h
    · rw [if_neg h]
      exact iff_of_false (fun he => Except.noConfusion he) h
  · unfold validate_input_size
    by_cases h : input.utf8ByteSize > config.limits.max_input_size
    · rw [if_pos h]
      exact iff_of_false (fun he => Except.noConfusion he)
        (fun hle => absurd h (Nat.not_lt.mpr hle))
    · rw [if_neg h]
      exact iff_of_true rfl (Nat.le_of_not_lt h)

/-- A `cache_cve` write leaves the written key bound to the new payload
stamped `now`: the inserted binding's age is zero, so the inline sweep keeps
it. -/
theorem cache_cve_lookup_self {V : Type} (cache : List (String × CachedCve V))
    (now : Nat) (id : String) (v : V) :
    alistLookup (cache_cve cache now id v) id = some ⟨v, now⟩ := by
  apply alistLookup_filter_of_lookup
  · exact alistLookup_insert_self cache id ⟨v, now⟩
  · simp only [Nat.sub_self, decide_eq_true_eq]
    decide

/-- Claim C2: a lookup of a cold key (absent or expired) runs the fetch (its
single call site) and stores the successful result stamped with the current
time; every later lookup of the same normalized key within the 3600 s TTL
returns the stored value without running the fetch, whatever the upstream
would return by then. -/
theorem C2_cold_fetch_once_then_stable_hits {V : Type} {E : Type}
    (cache : List (String × CachedCve V)) (now : Nat) (id : String) (v : V)
    (fetch : Except E V) (hcold : get_cached_cve cache now id = none)
    (hfetch : fetch = Except.ok v) :
    cveCacheStep cache now id fetch =
      (Except.ok v, cache_cve cache now id v, true) ∧
    alistLookup (cache_cve cache now id v) id = some ⟨v, now⟩ ∧
    (∀ (now' : Nat) (fetch' : Except E V), now ≤ now' →
      now' - now < CACHE_DURATION →
      cveCacheStep (cache_cve cache now id v) now' id fetch' =
        (Except.ok v, cache_cve cache now id v, false)) := by
  refine ⟨by simp [cveCacheStep, hcold, hfetch], cache_cve_lookup_self _ _ _ _,
    ?_⟩
  intro now' fetch' _hle httl
  have hhit : get_cached_cve (cache_cve cache now id v) now' id = some v := by
    simp [get_cached_cve, cache_cve_lookup_self, httl]
  simp [cveCacheStep, hhit]

/-- Witness for C2: a cold lookup of "CVE-2019-16863" with a successful
fetch of payload 7 runs the fetch and stores the value. -/
theorem C2_witness :
    cveCacheStep ([] : List (String × CachedCve Nat)) 0 "CVE-2019-16863"
        (Except.ok 7 : Except Unit Nat) =
      (Except.ok 7,
        cache_cve ([] : List (String × CachedCve Nat)) 0 "CVE-2019-16863" 7,
        true) :=
  (C2_cold_fetch_once_then_stable_hits [] 0 "CVE-2019-16863" 7 (Except.ok 7)
    rfl rfl).1

/-- Claim C3: a failed fetch is propagated and stores nothing — the cache
mapping is returned unchanged — so every later lookup of the same key (the
cache being unchanged and the entry still cold) runs the fetch again. -/
theorem C3_fetch_failure_never_cached {V : Type} {E : Type}
    (cache : List (String × CachedCve V)) (now : Nat) (id : String) (e : E)
    (hcold : get_cached_cve cache now id = none) :
    cveCacheStep cache now id (Except.error e : Except E V) =
      (Except.error e, cache, true) ∧
    (∀ (now' : Nat) (fetch' : Except E V), now ≤ now' →
      (cveCacheStep cache now' id fetch').2.2 = true) := by
  have hcold' : ∀ now' : Nat, now ≤ now' →
      get_cached_cve cache now' id = none := by
    intro now' hle
    cases hx : alistLookup cache id with
    | none => simp [get_cached_cve, hx]
    | some cached =>
        simp only [get_cached_cve, hx, ite_eq_right_iff,
          reduceCtorEq, imp_false] at hcold ⊢
        exact fun hlt =>
          hcold (Nat.lt_of_le_of_lt (Nat.sub_le_sub_right hle _) hlt)
  refine ⟨by simp [cveCacheStep, hcold], ?_⟩
  intro now' fetch' hle
  have h := hcold' now' hle
  cases fetch' with
  | ok v => simp [cveCacheStep, h]
  | error e' => simp [cveCacheStep, h]

/-- Witness for C3: with an entry exactly at the TTL boundary the key is
cold; a failing fetch propagates the error and leaves the cache unchanged. -/
theorem C3_witness :
    cveCacheStep [("CVE-2019-16863", CachedCve.mk (5 : Nat) 0)] CACHE_DURATION
        "CVE-2019-16863" (Except.error "http 404" : Except String Nat) =
      (Except.error "http 404",
        [("CVE-2019-16863", CachedCve.mk (5 : Nat) 0)], true) :=
  (C3_fetch_failure_never_cached [("CVE-2019-16863", CachedCve.mk (5 : Nat) 0)]
    CACHE_DURATION "CVE-2019-16863" "http 404" (by decide)).1

/-- Claim C10: right after a `cache_cve` write, every entry of the cache —
the just-inserted one included — has age strictly below the 3600 s TTL: the
inline sweep on each write retains exactly the entries with
`elapsed < CACHE_DURATION`. -/
theorem C10_write_leaves_no_expired_entry {V : Type}
    (cache : List (String × CachedCve V)) (now : Nat) (id : String) (v : V) :
    (∀ p ∈ cache_cve cache now id v,
      now - (p.2).cached_at < CACHE_DURATION) ∧
    alistLookup (cache_cve cache now id v) id = some ⟨v, now⟩ := by
  refine ⟨?_, cache_cve_lookup_self _ _ _ _⟩
  intro p hp
  have h := List.of_mem_filter hp
  simpa using h

/-- Witness for C10: the freshly written entry has age 0 < TTL. -/
theorem C10_witness :
    (0 : Nat) - (CachedCve.mk (3 : Nat) 0).cached_at < CACHE_DURATION :=
  (C10_write_leaves_no_expired_entry ([] : List (String × CachedCve Nat)) 0
    "CVE-2019-16863" 3).1 ("CVE-2019-16863", CachedCve.mk 3 0) (by decide)

/-- Characterization of the sweep on a well-formed store: when the cutoff
subtraction does not underflow, `cleanup_expired` succeeds and a key remains
bound to its timestamp exactly when it was bound before and the timestamp is
strictly after the cutoff. -/
theorem cleanup_expired_lookup_iff (st : CooldownManager)
    (now max_age cutoff : Nat) (hwf : st.WF)
    (hcut : instantCheckedSub now (durationFromSecs max_age) = some cutoff) :
    ∃ st' : CooldownManager, st.cleanup_expired now max_age = some st' ∧
      ∀ (c : String) (u ts : Nat),
        st'.lookup c u = some ts ↔ (st.lookup c u = some ts ∧ cutoff < ts) := by
  refine ⟨⟨((st.cooldowns.map (fun p =>
      (p.1, p.2.filter (fun q => decide (cutoff < q.2))))).filter
        (fun p => !p.2.isEmpty))⟩,
    by simp [CooldownManager.cleanup_expired, hcut], ?_⟩
  intro c u ts
  have hnd : ((st.cooldowns.map (fun p =>
      (p.1, p.2.filter (fun q => decide (cutoff < q.2))))).map
        Prod.fst).Nodup := by
    rw [List.map_map]
    exact hwf.1
  have houter := alistLookup_filter_nodup
    (st.cooldowns.map (fun p =>
      (p.1, p.2.filter (fun q => decide (cutoff < q.2)))))
    (fun p => !p.2.isEmpty) c hnd
  have hmap := alistLookup_map_value st.cooldowns
    (fun inner => inner.filter (fun q => decide (cutoff < q.2))) c
  rw [hmap] at houter
  show alistLookup ((alistLookup _ c).getD []) u = some ts ↔ _
  cases hoc : alistLookup st.cooldowns c with
  | none =>
      rw [hoc] at houter
      simp only [Option.map_none'] at houter
      rw [houter]
      simp [CooldownManager.lookup, hoc, alistLookup]
  | some inner =>
      have hinner_nd : (inner.map Prod.fst).Nodup :=
        hwf.2 (c, inner) (alistLookup_mem _ _ _ hoc)
      have hfil := alistLookup_filter_nodup inner
        (fun q => decide (cutoff < q.2)) u hinner_nd
      rw [hoc] at houter
      simp only [Option.map_some'] at houter
      by_cases hemp :
          (inner.filter (fun q => decide (cutoff < q.2))).isEmpty = true
      · have houter0 : alistLookup ((st.cooldowns.map (fun p =>
            (p.1, p.2.filter (fun q => decide (cutoff < q.2))))).filter
              (fun p => !p.2.isEmpty)) c = none := by
          rw [houter]
          simp [hemp]
        rw [houter0]
        rw [List.isEmpty_iff] at hemp
        simp only [Option.getD_none]
        constructor
        · intro h
          simp [alistLookup] at h
        · rintro ⟨hl, hcl⟩
          have hlu : alistLookup inner u = some ts := by
            simpa [CooldownManager.lookup, hoc] using hl
          have hkeep := alistLookup_filter_of_lookup inner
            (fun q => decide (cutoff < q.2)) u ts hlu (by simpa using hcl)
          rw [hemp] at hkeep
          simp [alistLookup] at hkeep
      · have hemp' : (inner.filter (fun q => decide (cutoff < q.2))).isEmpty =
            false := by
          simpa using hemp
        have houter1 : alistLookup ((st.cooldowns.map (fun p =>
            (p.1, p.2.filter (fun q => decide (cutoff < q.2))))).filter
              (fun p => !p.2.isEmpty)) c =
            some (inner.filter (fun q => decide (cutoff < q.2))) := by
          rw [houter]
          simp [hemp']
        rw [houter1]
        simp only [Option.getD_some]
        have hst : st.lookup c u = alistLookup inner u := by
          simp [CooldownManager.lookup, hoc]
        rw [hst]
        cases hu : alistLookup inner u with
        | none =>
            have hfil0 : alistLookup (inner.filter
                (fun q => decide (cutoff < q.2))) u = none := by
              rw [hfil, hu]
            rw [hfil0]
            simp
        | some ts0 =>
            have hfil1 : alistLookup (inner.filter
                (fun q => decide (cutoff < q.2))) u =
                if cutoff < ts0 then some ts0 else none := by
              rw [hfil, hu]
              simp
            rw [hfil1]
            by_cases hcl : cutoff < ts0
            · rw [if_pos hcl]
              constructor
              · intro h
                have hts : ts0 = ts := by simpa using h
                exact ⟨h, by omega⟩
              · exact fun h => h.1
            · rw [if_neg hcl]
              constructor
              · intro h
                simp at h
              · rintro ⟨hl, hcl'⟩
                have hts : ts0 = ts := by simpa using hl
                exact absurd hcl' (hts ▸ hcl)

/-- Claim C6: with a non-underflowing cutoff, `cleanup(max_age_seconds)`
removes exactly the entries strictly older than the cutoff, across all
commands and users: the retained bindings are characterized exactly, every
entry older than `max_age_seconds` is removed, and every entry younger than
`max_age_seconds` is preserved with its timestamp unchanged.  (An entry aged
exactly `max_age_seconds` to the nanosecond is removed — the retain keeps
`last_used > cutoff` strictly — which the claim's two strict age directions
leave unconstrained.) -/
theorem C6_cleanup_removes_exactly_old (st : CooldownManager)
    (now max_age : Nat) (hwf : st.WF)
    (hsub : durationFromSecs max_age ≤ now) :
    ∃ st' : CooldownManager, st.cleanup_expired now max_age = some st' ∧
      (∀ (c : String) (u ts : Nat),
        st'.lookup c u = some ts ↔
          (st.lookup c u = some ts ∧ now - durationFromSecs max_age < ts)) ∧
      (∀ (c : String) (u ts : Nat), st.lookup c u = some ts →
        durationFromSecs max_age < now - ts → st'.lookup c u = none) ∧
      (∀ (c : String) (u ts : Nat), st.lookup c u = some ts →
        now - ts < durationFromSecs max_age → st'.lookup c u = some ts) := by
  have hcut : instantCheckedSub now (durationFromSecs max_age) =
      some (now - durationFromSecs max_age) := by
    simp [instantCheckedSub, hsub]
  obtain ⟨st', h1, h2⟩ :=
    cleanup_expired_lookup_iff st now max_age _ hwf hcut
  refine ⟨st', h1, h2, ?_, ?_⟩
  · intro c u ts hl hold
    cases hx : st'.lookup c u with
    | none => rfl
    | some x =>
        obtain ⟨hsx, hcx⟩ := (h2 c u x).mp hx
        rw [hl] at hsx
        have hx' : ts = x := by simpa using hsx
        omega
  · intro c u ts hl hyoung
    exact (h2 c u ts).mpr ⟨hl, by omega⟩

/-- Witness for C6: in a store holding timestamps 1 s and 5 s, a sweep at
t = 6 s with max_age 3 s removes the first and preserves the second. -/
theorem C6_witness :
    ∃ st' : CooldownManager,
      (CooldownManager.mk [("hash", [(1, 1000000000), (2, 5000000000)])]
        ).cleanup_expired 6000000000 3 = some st' ∧
      st'.lookup "hash" 1 = none ∧ st'.lookup "hash" 2 = some 5000000000 := by
  obtain ⟨st', h1, _h2, h3, h4⟩ := C6_cleanup_removes_exactly_old
    (CooldownManager.mk [("hash", [(1, 1000000000), (2, 5000000000)])])
    6000000000 3 (by decide) (by decide)
  exact ⟨st', h1, h3 "hash" 1 1000000000 (by decide) (by decide),
    h4 "hash" 2 5000000000 (by decide) (by decide)⟩

/-- Counterexample to Claim C7 as stated: the claim quantifies over every
`max_age_seconds`, but the cutoff `Instant::now() - Duration::from_secs(..)`
(`src/util/cooldown.rs` line 44) uses `Sub<Duration> for Instant`, which
panics when the duration reaches back before the monotonic clock epoch; the
panic happens before the store is examined, so it hits the empty store too.
Concretely, at the instant `0` (the clock epoch itself) a sweep with
`max_age_seconds = 1` underflows: the model returns the panic marker `none`
instead of the empty store. -/
theorem C7_counterexample :
    CooldownManager.new.cleanup_expired 0 1 = none := by decide

/-- Claim C7 as amended: for every `max_age_seconds` whose duration does not
exceed the current instant's offset from the monotonic clock epoch — in
particular whenever the host has been up for at least `max_age_seconds` —
the sweep on an empty store succeeds without error and leaves the store
empty (the cutoff is computed before the store is examined). -/
theorem C7_empty_store_sweep_noop (now max_age : Nat)
    (hsub : durationFromSecs max_age ≤ now) :
    CooldownManager.new.cleanup_expired now max_age =
      some CooldownManager.new := by
  simp [CooldownManager.cleanup_expired, instantCheckedSub, hsub,
    CooldownManager.new]

/-- Witness for the amended C7 at the production parameters: retention
horizon 3600 s, one hour after the clock epoch. -/
theorem C7_witness :
    CooldownManager.new.cleanup_expired 3600000000000 3600 =
      some CooldownManager.new :=
  C7_empty_store_sweep_noop 3600000000000 3600 (by decide)

end Arisa
